import Mathlib

/-!
Shallow embedding of the TrialScope pipeline (`colab_api.py`,
class `TrialScopeAPI`): adapters → aggregation → `deduplicate_trials` →
`classify_with_ai` → sort by `ai_score`, and theorems checking the
specification's claims about it.
-/

/-- A result record as built by the adapters.  Every adapter sets the
`title`, `url`, `source` and `abstract` keys; the AI fields are absent
until `classify_with_ai` sets them (`none` models a missing dict key).
Per-source extra keys (`nct_id`, `registry_id`, `status`, `phase`, …) are
never read by the pipeline logic — deduplication keys on `title` only and
the final sort on `ai_score` — so they are not modelled. -/
structure Trial where
  title : String
  url : String
  source : String
  abstract : String
  ai_score : Option Int := none
  ai_classification : Option String := none
  confidence : Option Int := none
  ai_reasoning : Option String := none
deriving DecidableEq

/-- Python `str.lower()` over the characters (the titles handled here are
ASCII, where `Char.toLower` agrees with Python's case folding). -/
def pyLower (s : String) : String := String.mk (s.toList.map Char.toLower)

/-- Python `str.strip()`: drop leading and trailing whitespace. -/
def pyStrip (s : String) : String :=
  String.mk (((s.toList.dropWhile Char.isWhitespace).reverse.dropWhile
    Char.isWhitespace).reverse)

/-- Helper for `pySplit`: cut a character list at whitespace characters. -/
def splitWsAux : List Char → List Char → List (List Char)
  | [], acc => [acc.reverse]
  | c :: cs, acc =>
    if c.isWhitespace then acc.reverse :: splitWsAux cs []
    else splitWsAux cs (c :: acc)

/-- Python `str.split()` with no argument: split on whitespace runs and
discard empty pieces. -/
def pySplit (s : String) : List String :=
  ((splitWsAux s.toList []).map String.mk).filter (fun t => t != "")

/-- `set(title.split())` — the token set a title is compared by. -/
def titleTokenSet (title : String) : Finset String := (pySplit title).toFinset

/-- The overlap ratio of `deduplicate_trials`:
`len(A & B) / max(len(A), len(B), 1)`, over ℚ.  (Python evaluates this in
floating point; for the integer ratios compared against the literal `0.8`
the float test `> 0.8` agrees with the exact rational test.) -/
def overlap (A B : Finset String) : ℚ :=
  ((A ∩ B).card : ℚ) / ((max A.card (max B.card 1) : ℕ) : ℚ)

/-- The normalized title key of `deduplicate_trials`:
`trial.get('title', '').lower().strip()`. -/
def normTitle (t : Trial) : String := pyStrip (pyLower t.title)

/-- The source's threshold test `overlap > 0.8` with the division cleared:
since the denominator is at least 1, `i / d > 4/5  ↔  5 * i > 4 * d`.
Stated over Nat so that the kernel can evaluate it on concrete titles;
`overlapGt_iff` proves it coincides with the `overlap` formula. -/
def overlapGt (A B : Finset String) : Bool :=
  5 * (A ∩ B).card > 4 * max A.card (max B.card 1)

theorem overlapGt_iff (A B : Finset String) :
    overlapGt A B = true ↔ overlap A B > (4/5 : ℚ) := by
  rw [overlapGt, decide_eq_true_iff]
  rw [overlap, gt_iff_lt, gt_iff_lt]
  set i := (A ∩ B).card with hi
  set d := max A.card (max B.card 1) with hdd
  have h1 : (1 : ℕ) ≤ d := le_max_of_le_right (le_max_right _ _)
  have hd : (0 : ℚ) < (d : ℚ) := by exact_mod_cast h1
  rw [div_lt_div_iff₀ (by norm_num) hd]
  constructor
  · intro h
    have h' : ((4 * d : ℕ) : ℚ) < ((5 * i : ℕ) : ℚ) := by exact_mod_cast h
    push_cast at h'
    linarith
  · intro h
    have h' : ((4 * d : ℕ) : ℚ) < ((5 * i : ℕ) : ℚ) := by push_cast; linarith
    exact_mod_cast h'

/-- The duplicate test of `deduplicate_trials`: the candidate title's token
set overlaps some already-seen title's token set by strictly more than 0.8.
(`seen_titles` is a Python `set`; only membership in this existential test
is ever used, so a list models it faithfully.) -/
def isDuplicate (seenTitles : List String) (title : String) : Bool :=
  seenTitles.any (fun s => overlapGt (titleTokenSet title) (titleTokenSet s))

theorem isDuplicate_iff (seenTitles : List String) (title : String) :
    isDuplicate seenTitles title = true ↔
    ∃ s ∈ seenTitles, overlap (titleTokenSet title) (titleTokenSet s) > (4/5 : ℚ) := by
  simp only [isDuplicate, List.any_eq_true, overlapGt_iff]

/-- The accept/discard loop of `deduplicate_trials`. -/
def dedupeGo (seenTitles : List String) : List Trial → List Trial
  | [] => []
  | t :: ts =>
    let title := normTitle t
    if isDuplicate seenTitles title then dedupeGo seenTitles ts
    else t :: dedupeGo (title :: seenTitles) ts

/-- `TrialScopeAPI.deduplicate_trials`. -/
def deduplicate_trials (trials : List Trial) : List Trial := dedupeGo [] trials

/-! ### Deduplicator lemmas -/

theorem dedupeGo_sublist (seen : List String) (ts : List Trial) :
    List.Sublist (dedupeGo seen ts) ts := by
  induction ts generalizing seen with
  | nil => simp [dedupeGo]
  | cons t ts ih =>
    simp only [dedupeGo]
    split
    · exact (ih seen).trans (List.sublist_cons_self t ts)
    · exact List.Sublist.cons₂ t (ih _)

/-- `AcceptedChain seen us`: every record of `us` is non-duplicate against
`seen` extended with the titles of its predecessors in `us` — the
invariant `dedupeGo` guarantees of its output. -/
def AcceptedChain : List String → List Trial → Prop
  | _, [] => True
  | seen, t :: ts =>
      isDuplicate seen (normTitle t) = false ∧ AcceptedChain (normTitle t :: seen) ts

theorem acceptedChain_dedupeGo (seen : List String) (ts : List Trial) :
    AcceptedChain seen (dedupeGo seen ts) := by
  induction ts generalizing seen with
  | nil => trivial
  | cons t ts ih =>
    simp only [dedupeGo]
    split
    · exact ih seen
    · next h => exact ⟨by simpa using h, ih _⟩

theorem dedupeGo_of_acceptedChain {seen : List String} {us : List Trial}
    (h : AcceptedChain seen us) : dedupeGo seen us = us := by
  induction us generalizing seen with
  | nil => rfl
  | cons t ts ih =>
    obtain ⟨h1, h2⟩ := h
    simp only [dedupeGo, h1]
    simp [ih h2]

/-! ### Tokenization is invariant under `strip()` -/

/-- The tokens contributed by a list of whitespace-cut chunks (the
`map`/`filter` part of `pySplit`). -/
def wsTokens (xs : List (List Char)) : List String :=
  (xs.map String.mk).filter (fun t => t != "")

theorem pySplit_eq_wsTokens (s : String) :
    pySplit s = wsTokens (splitWsAux s.toList []) := rfl

theorem wsTokens_cons (a : List Char) (xs : List (List Char)) :
    wsTokens (a :: xs) =
      (if String.mk a != "" then [String.mk a] else []) ++ wsTokens xs := by
  simp only [wsTokens, List.map_cons, List.filter_cons]
  split <;> simp_all

theorem splitWsAux_all_ws (ds : List Char) (acc : List Char)
    (h : ∀ c ∈ ds, c.isWhitespace) :
    wsTokens (splitWsAux ds acc) = wsTokens [acc.reverse] := by
  induction ds generalizing acc with
  | nil => rfl
  | cons d ds ih =>
    have hd : d.isWhitespace := h d (by simp)
    rw [splitWsAux, if_pos hd, wsTokens_cons]
    have h2 : wsTokens (splitWsAux ds []) = wsTokens [List.reverse []] :=
      ih [] (fun c hc => h c (by simp [hc]))
    simp only [List.reverse_nil] at h2
    have hnil : wsTokens [([] : List Char)] = [] := by simp [wsTokens]
    rw [h2, hnil, wsTokens_cons]
    simp [wsTokens]

theorem splitWsAux_append_ws (cs ds : List Char)
    (h : ∀ c ∈ ds, c.isWhitespace) :
    ∀ acc, wsTokens (splitWsAux (cs ++ ds) acc) = wsTokens (splitWsAux cs acc) := by
  induction cs with
  | nil =>
    intro acc
    rw [List.nil_append, splitWsAux_all_ws ds acc h]
    rfl
  | cons c cs ih =>
    intro acc
    rw [List.cons_append, splitWsAux, splitWsAux]
    by_cases hc : c.isWhitespace
    · rw [if_pos hc, if_pos hc, wsTokens_cons, wsTokens_cons, ih []]
    · rw [if_neg hc, if_neg hc]
      exact ih (c :: acc)

theorem splitWsAux_dropWhile_leading (l : List Char) :
    wsTokens (splitWsAux (l.dropWhile Char.isWhitespace) []) =
    wsTokens (splitWsAux l []) := by
  induction l with
  | nil => rfl
  | cons c cs ih =>
    by_cases hc : c.isWhitespace
    · rw [List.dropWhile_cons, if_pos hc, ih, splitWsAux, if_pos hc, wsTokens_cons]
      simp [wsTokens]
    · rw [List.dropWhile_cons, if_neg hc]

/-- `title.split()` sees the same tokens before and after `strip()`. -/
theorem pySplit_pyStrip (s : String) : pySplit (pyStrip s) = pySplit s := by
  rw [pySplit_eq_wsTokens, pySplit_eq_wsTokens]
  have htl : (pyStrip s).toList =
      ((s.toList.dropWhile Char.isWhitespace).reverse.dropWhile
        Char.isWhitespace).reverse := rfl
  rw [htl]
  set m := s.toList.dropWhile Char.isWhitespace with hm
  have hsplit : m = (m.reverse.dropWhile Char.isWhitespace).reverse ++
      (m.reverse.takeWhile Char.isWhitespace).reverse := by
    have := List.takeWhile_append_dropWhile (p := Char.isWhitespace) (l := m.reverse)
    calc m = m.reverse.reverse := (List.reverse_reverse m).symm
    _ = (m.reverse.takeWhile Char.isWhitespace ++
          m.reverse.dropWhile Char.isWhitespace).reverse := by rw [this]
    _ = _ := by rw [List.reverse_append]
  have hws : ∀ c ∈ (m.reverse.takeWhile Char.isWhitespace).reverse, c.isWhitespace := by
    intro c hc
    rw [List.mem_reverse] at hc
    exact List.mem_takeWhile_imp hc
  calc wsTokens (splitWsAux (m.reverse.dropWhile Char.isWhitespace).reverse []) =
      wsTokens (splitWsAux ((m.reverse.dropWhile Char.isWhitespace).reverse ++
        (m.reverse.takeWhile Char.isWhitespace).reverse) []) :=
        (splitWsAux_append_ws _ _ hws []).symm
    _ = wsTokens (splitWsAux m []) := by rw [← hsplit]
    _ = wsTokens (splitWsAux s.toList []) := by
        rw [hm]; exact splitWsAux_dropWhile_leading s.toList

/-- The token set of the deduplicator's normalized title is the token set
of the lower-cased title: `strip()` contributes nothing. -/
theorem titleTokenSet_normTitle (t : Trial) :
    titleTokenSet (normTitle t) = titleTokenSet (pyLower t.title) := by
  unfold titleTokenSet normTitle
  rw [pySplit_pyStrip]

/-! ### The Deduplicator as the specification words it -/

/-- Token set of a record as the claim words it: the lower-cased,
whitespace-tokenized title. -/
def specTokens (t : Trial) : Finset String := titleTokenSet (pyLower t.title)

theorem specTokens_eq_norm (t : Trial) :
    specTokens t = titleTokenSet (normTitle t) := (titleTokenSet_normTitle t).symm

/-- The Deduplicator as the specification describes it: walking the input
in order, a record is discarded iff its token-set overlap with some
already-accepted record strictly exceeds 0.8, else it is accepted. -/
def dedupeSpecGo (accepted : List Trial) : List Trial → List Trial
  | [] => []
  | t :: ts =>
    if ∃ a ∈ accepted, overlap (specTokens t) (specTokens a) > (4/5 : ℚ) then
      dedupeSpecGo accepted ts
    else t :: dedupeSpecGo (accepted ++ [t]) ts

/-- Entry point of the specification-side Deduplicator. -/
def dedupeSpec (ts : List Trial) : List Trial := dedupeSpecGo [] ts

theorem dedupeSpecGo_eq (ts : List Trial) :
    ∀ accepted : List Trial,
      dedupeSpecGo accepted ts = dedupeGo ((accepted.map normTitle).reverse) ts := by
  induction ts with
  | nil => intro acc; rfl
  | cons t ts ih =>
    intro acc
    simp only [dedupeSpecGo, dedupeGo]
    have hiff : (∃ a ∈ acc, overlap (specTokens t) (specTokens a) > (4/5 : ℚ)) ↔
        isDuplicate ((acc.map normTitle).reverse) (normTitle t) = true := by
      rw [isDuplicate_iff]
      constructor
      · rintro ⟨a, ha, hov⟩
        refine ⟨normTitle a, ?_, ?_⟩
        · simp only [List.mem_reverse, List.mem_map]
          exact ⟨a, ha, rfl⟩
        · rwa [specTokens_eq_norm t, specTokens_eq_norm a] at hov
      · rintro ⟨s, hs, hov⟩
        simp only [List.mem_reverse, List.mem_map] at hs
        obtain ⟨a, ha, rfl⟩ := hs
        refine ⟨a, ha, ?_⟩
        rwa [specTokens_eq_norm t, specTokens_eq_norm a]
    by_cases hdp : ∃ a ∈ acc, overlap (specTokens t) (specTokens a) > (4/5 : ℚ)
    · rw [if_pos hdp, if_pos (hiff.mp hdp), ih acc]
    · have hb : isDuplicate ((acc.map normTitle).reverse) (normTitle t) = false := by
        rcases Bool.eq_false_or_eq_true
          (isDuplicate ((acc.map normTitle).reverse) (normTitle t)) with h | h
        · exact absurd (hiff.mpr h) hdp
        · exact h
      rw [if_neg hdp, if_neg (by simp [hb]), ih (acc ++ [t])]
      congr 1
      simp

/-- The source deduplicator and the specification's description agree. -/
theorem deduplicate_trials_eq_spec (ts : List Trial) :
    deduplicate_trials ts = dedupeSpec ts := by
  rw [deduplicate_trials, dedupeSpec, dedupeSpecGo_eq]
  rfl

/-! ### `classify_with_ai` -/

/-- Python truthiness of an optional string credential (the code guards
with `if not self.anthropic_api_key` / `if not self.serpapi_key`): an
absent key and an empty-string key are both falsy. -/
def truthyKey : Option String → Bool
  | none => false
  | some s => s != ""

/-- The fields `classify_with_ai` reads (each via `.get` with a default)
from the JSON object extracted out of one reasoning-service reply.
`none` models a missing key. -/
structure AIPayload where
  relevance_score : Option Int
  classification : Option String
  confidence : Option Int
  reasoning : Option String
deriving DecidableEq

/-- What happened for one record inside the per-record `try` of
`classify_with_ai`: the API call raised (`err`), or a reply text came back
and the embedded-JSON extraction/parse failed (`reply none`) or produced a
payload (`reply (some p)`). -/
inductive RecordOutcome
  | err
  | reply (payload : Option AIPayload)
deriving DecidableEq

/-- The reasoning service's behaviour over one batch: either client setup
fails before the loop (`import anthropic` or the client constructor
raises, caught by the function-level `except`), or each record's call has
its own outcome. -/
inductive ClassifyEnv
  | setupFail
  | ok (outcomes : Nat → RecordOutcome)

/-- The per-record classification step of `classify_with_ai` on the AI
path: parsed payload fields with their `.get` defaults, the
no-JSON/parse-failure fallback, and the per-record exception fallback.
The Python code mutates the trial dict in place; a record update models
the same data result. -/
def classifyOne (o : RecordOutcome) (t : Trial) : Trial :=
  match o with
  | .reply (some p) =>
      { t with ai_score := some (p.relevance_score.getD 75),
               ai_classification := some (p.classification.getD "Relevant"),
               confidence := some (p.confidence.getD 75),
               ai_reasoning := some (p.reasoning.getD "AI analysis completed") }
  | .reply none =>
      { t with ai_score := some 75,
               ai_classification := some "Relevant",
               confidence := some 70,
               ai_reasoning := some "Default classification applied" }
  | .err =>
      { t with ai_score := some 70,
               ai_classification := some "Relevant",
               confidence := some 65,
               ai_reasoning := some "Classification error, default applied" }

/-- The `for i, trial in enumerate(trials)` loop of `classify_with_ai`.
(The `time.sleep(1)` pacing after every 5 records has no effect on the
returned data.) -/
def classifyLoop (f : Nat → RecordOutcome) : Nat → List Trial → List Trial
  | _, [] => []
  | i, t :: ts => classifyOne (f i) t :: classifyLoop f (i + 1) ts

/-- `TrialScopeAPI.classify_with_ai`.  The `query` argument only feeds the
prompt text, which `env` abstracts together with the service's replies. -/
def classify_with_ai (anthropicKey : Option String) (env : ClassifyEnv)
    (trials : List Trial) (query : String) : List Trial :=
  if truthyKey anthropicKey = false then
    trials.map (fun t =>
      { t with ai_score := some 75, ai_classification := some "Relevant",
               confidence := some 75 })
  else
    match env with
    | .setupFail =>
        trials.map (fun t =>
          { t with ai_score := some 75, ai_classification := some "Relevant",
                   confidence := some 70 })
    | .ok f => classifyLoop f 0 trials

/-! ### Source adapters -/

/-- Remainder of a character list after a `<[^>]+>` tag match starting
right after a `<`: one or more non-`>` characters, then the first `>`. -/
def tagRest (cs : List Char) : Option (List Char) :=
  match cs.dropWhile (fun x => x != '>') with
  | [] => none
  | _ :: after => if cs.head? = some '>' then none else some after

/-- `re.sub(r'<[^>]+>', '', ·)` on an abstract: delete every maximal
`<...>` span, scanning left to right.  The recursion is fuelled by the
character count (every step consumes at least one character, so
`cs.length` fuel always suffices); this keeps it structural, hence
kernel-evaluable. -/
def stripTagsFuel : Nat → List Char → List Char
  | 0, cs => cs
  | _ + 1, [] => []
  | fuel + 1, c :: cs =>
    if c = '<' then
      match tagRest cs with
      | some after => stripTagsFuel fuel after
      | none => c :: stripTagsFuel fuel cs
    else c :: stripTagsFuel fuel cs

/-- Entry point of the tag stripper. -/
def stripTags (cs : List Char) : List Char := stripTagsFuel cs.length cs

/-- `re.sub(r'\s+', ' ', ·)`: collapse each whitespace run to one space.
The flag records whether the previous character was whitespace. -/
def collapseWsAux : Bool → List Char → List Char
  | _, [] => []
  | prevWs, c :: cs =>
    if c.isWhitespace then
      if prevWs then collapseWsAux true cs else ' ' :: collapseWsAux true cs
    else c :: collapseWsAux false cs

/-- Entry point of the whitespace collapser. -/
def collapseWs (cs : List Char) : List Char := collapseWsAux false cs

/-- The abstract clean-up of `search_clinicaltrials_gov`: strip HTML tags,
collapse whitespace, then `strip()`. -/
def cleanAbstract (s : String) : String :=
  pyStrip (String.mk (collapseWs (stripTags s.toList)))

/-- The fields `search_clinicaltrials_gov` reads from one study that flow
into a `Trial`.  `none` models a missing JSON key; `some ""` a key present
with an empty string.  The other extracted keys (conditions, phase,
status, start date, sponsor, interventions) populate dict keys the
pipeline never reads again and are not modelled; in this typed model of a
well-formed response the per-study `try` cannot raise. -/
structure CTStudy where
  nctId : Option String
  briefTitle : Option String
  officialTitle : Option String
  briefSummary : Option String
  detailedDescription : Option String
deriving DecidableEq

/-- Processing of one study inside `search_clinicaltrials_gov`. -/
def processStudy (st : CTStudy) : Trial :=
  { title := st.briefTitle.getD (st.officialTitle.getD "No title")
    url :=
      if st.nctId.getD "N/A" != "N/A" then
        "https://clinicaltrials.gov/study/" ++ st.nctId.getD "N/A"
      else "N/A"
    source := "ClinicalTrials.gov"
    abstract :=
      if st.briefSummary.getD (st.detailedDescription.getD "No abstract available") != "" then
        cleanAbstract (st.briefSummary.getD (st.detailedDescription.getD "No abstract available"))
      else st.briefSummary.getD (st.detailedDescription.getD "No abstract available") }

/-- `TrialScopeAPI.search_clinicaltrials_gov`: `none` models a failed
request (`RequestException` → `return []`); `some studies` the parsed
`studies` array.  `max_results` is only forwarded as the `max_rnk`
request parameter, i.e. into the environment. -/
def search_clinicaltrials_gov (resp : Option (List CTStudy)) : List Trial :=
  match resp with
  | none => []
  | some studies => studies.map processStudy

/-- The fields `search_google_scholar` reads from one organic result that
flow into a `Trial` (citations/year/authors populate keys the pipeline
never reads and are not modelled). -/
structure ScholarItem where
  title : Option String
  link : Option String
  snippet : Option String
deriving DecidableEq

/-- Processing of one organic result inside `search_google_scholar`. -/
def processScholarItem (r : ScholarItem) : Trial :=
  { title := r.title.getD "No title"
    url := r.link.getD "N/A"
    source := "Google Scholar"
    abstract := r.snippet.getD "No abstract available" }

/-- `TrialScopeAPI.search_google_scholar`: no SerpAPI key → skip (`[]`),
failed request → `[]`, otherwise map the organic results (the response
list is not truncated by the code; `num` is only a request parameter). -/
def search_google_scholar (serpapiKey : Option String)
    (resp : Option (List ScholarItem)) : List Trial :=
  if truthyKey serpapiKey = false then []
  else
    match resp with
    | none => []
    | some rs => rs.map processScholarItem

/-- `TrialScopeAPI.search_pubmed_related`: `none` models a failed
esearch/efetch request; `some pmids` the returned id list (an empty id
list returns `[]` early, which coincides with mapping over `[]`).  The
papers are built from `pmids[:max_results]`; every caller passes a
positive count, where `Int.toNat` agrees with the Python slice. -/
def search_pubmed_related (maxResults : Int) (resp : Option (List String)) : List Trial :=
  match resp with
  | none => []
  | some pmids =>
    (pmids.take maxResults.toNat).map (fun pmid =>
      { title := "PubMed Research Article (PMID: " ++ pmid ++ ")"
        url := "https://pubmed.ncbi.nlm.nih.gov/" ++ pmid ++ "/"
        source := "PubMed"
        abstract := "Research article abstract available on PubMed" })

/-- Python `str(n).zfill(w)` for the nonnegative ids used here. -/
def zfill (s : String) (w : Nat) : String :=
  if s.length ≥ w then s else String.mk (List.replicate (w - s.length) '0') ++ s

/-- `TrialScopeAPI.search_isrctn_registry` (placeholder implementation in
the source): a failed search request yields `[]`, otherwise
`min(max_results, 10)` synthesized records. -/
def search_isrctn_registry (query : String) (maxResults : Int) (reqOk : Bool) :
    List Trial :=
  if !reqOk then []
  else
    (List.range (min maxResults 10).toNat).map (fun i =>
      { title := "ISRCTN Clinical Trial " ++ toString (i + 1)
        url := "https://www.isrctn.com/ISRCTN" ++ zfill (toString (i + 1)) 8
        source := "ISRCTN Registry"
        abstract := "Clinical trial from ISRCTN registry related to " ++ query })

/-- `TrialScopeAPI.search_anzctr_registry` (placeholder implementation):
a failed request yields `[]`, otherwise `min(max_results, 8)` records. -/
def search_anzctr_registry (query : String) (maxResults : Int) (reqOk : Bool) :
    List Trial :=
  if !reqOk then []
  else
    (List.range (min maxResults 8).toNat).map (fun i =>
      { title := "ANZCTR Clinical Trial: " ++ query ++ " Study " ++ toString (i + 1)
        url := "https://www.anzctr.org.au/Trial/Registration/TrialReview.aspx?ACTRN=" ++
          toString (12620000000000 + i)
        source := "ANZCTR"
        abstract := "Australian/New Zealand clinical trial studying " ++ query })

/-- Python `query.replace(" ", "")`. -/
def removeSpaces (s : String) : String :=
  String.mk (s.toList.filter (fun c => c != ' '))

/-- `TrialScopeAPI.search_who_ictrp` (placeholder implementation):
a failed request yields `[]`, otherwise `min(max_results, 15)` records. -/
def search_who_ictrp (query : String) (maxResults : Int) (reqOk : Bool) :
    List Trial :=
  if !reqOk then []
  else
    (List.range (min maxResults 15).toNat).map (fun i =>
      { title := "WHO ICTRP Global Trial: " ++ query ++ " Research " ++ toString (i + 1)
        url := "https://trialsearch.who.int/Trial2.aspx?TrialID=" ++
          removeSpaces query ++ toString (i + 1)
        source := "WHO ICTRP"
        abstract := "International clinical trial from WHO registry studying " ++ query })

/-- `TrialScopeAPI.search_eu_ctis` (placeholder implementation): issues no
request at all, so it always returns its `min(max_results, 12)` records. -/
def search_eu_ctis (query : String) (maxResults : Int) : List Trial :=
  (List.range (min maxResults 12).toNat).map (fun i =>
    { title := "EU CTIS Clinical Trial: " ++ query ++ " Study " ++ toString (i + 1)
      url := "https://euclinicaltrials.eu/ctis-public/view/" ++ toString (2020000000 + i)
      source := "EU CTIS"
      abstract := "European clinical trial investigating " ++ query ++
        " conducted under EU regulations" })

/-- `TrialScopeAPI.search_ctri_india` (placeholder implementation): issues
no request, so it always returns its `min(max_results, 10)` records. -/
def search_ctri_india (query : String) (maxResults : Int) : List Trial :=
  (List.range (min maxResults 10).toNat).map (fun i =>
    { title := "CTRI India: " ++ query ++ " Clinical Study " ++ toString (i + 1)
      url := "http://ctri.nic.in/Clinicaltrials/pmaindet2.php?trialid=" ++
        toString (2024000000 + i)
      source := "CTRI India"
      abstract := "Indian clinical trial examining " ++ query ++
        " with local population focus" })

/-! ### `search_trials` -/

/-- The external world one `search_trials` run interacts with: the
ClinicalTrials.gov response, whether each placeholder registry's outbound
request succeeds (EU CTIS and CTRI issue none and cannot fail), the
PubMed and Scholar responses, and the reasoning service's behaviour. -/
structure SearchEnv where
  ctgov : Option (List CTStudy)
  whoOk : Bool
  isrctnOk : Bool
  anzctrOk : Bool
  pubmed : Option (List String)
  scholar : Option (List ScholarItem)
  classify : ClassifyEnv

/-- `results_per_source = max(max_results // 8, 5)` (Python `//` is
floored division, `Int.fdiv`). -/
def resultsPerSource (maxResults : Int) : Int := max (Int.fdiv maxResults 8) 5

/-- The `if include_international:` block of `search_trials`, in the
source's registry order WHO, EU, ISRCTN, ANZCTR, CTRI. -/
def internationalTrials (env : SearchEnv) (query : String) (rps : Int)
    (includeInternational : Bool) : List Trial :=
  if includeInternational then
    search_who_ictrp query rps env.whoOk ++
    search_eu_ctis query rps ++
    search_isrctn_registry query rps env.isrctnOk ++
    search_anzctr_registry query rps env.anzctrOk ++
    search_ctri_india query rps
  else []

/-- The `if include_academic:` block of `search_trials`: PubMed then
Google Scholar. -/
def academicTrials (serpapiKey : Option String) (env : SearchEnv)
    (rps : Int) (includeAcademic : Bool) : List Trial :=
  if includeAcademic then
    search_pubmed_related rps env.pubmed ++
    search_google_scholar serpapiKey env.scholar
  else []

/-- The `if use_ai_classification:` step of `search_trials`. -/
def optClassify (anthropicKey : Option String) (cenv : ClassifyEnv)
    (useAI : Bool) (query : String) (ts : List Trial) : List Trial :=
  if useAI then classify_with_ai anthropicKey cenv ts query else ts

/-- The sort key of the final ranking step:
`lambda x: x.get('ai_score', 0)`. -/
def sortKey (t : Trial) : Int := t.ai_score.getD 0

/-- The relation under which the final sort is performed: descending on
the key, with ties related both ways (so a stable sort keeps their input
order, as Python's `list.sort` guarantees). -/
def rankRel (a b : Trial) : Prop := sortKey b ≤ sortKey a

instance : DecidableRel rankRel := fun a b => Int.decLe _ _

instance : IsTotal Trial rankRel := ⟨fun a b => le_total (sortKey b) (sortKey a)⟩

instance : IsTrans Trial rankRel :=
  ⟨fun _ _ _ hab hbc => le_trans hbc hab⟩

/-- The final ranking of `search_trials`:
`all_trials.sort(key=lambda x: x.get('ai_score', 0), reverse=True)` —
Python's stable in-place sort, descending on the key.  Embedded as the
stable `insertionSort` under `rankRel`, which produces the same (unique)
stable descending order as Python's stable sort. -/
def rankTrials (ts : List Trial) : List Trial :=
  ts.insertionSort rankRel

/-- `TrialScopeAPI.search_trials`: ClinicalTrials.gov first, then the
international block, then the academic block; deduplicate; optionally
classify; sort by `ai_score` descending. -/
def search_trials (anthropicKey serpapiKey : Option String) (env : SearchEnv)
    (query : String) (maxResults : Int)
    (includeAcademic includeInternational useAI : Bool) : List Trial :=
  rankTrials
    (optClassify anthropicKey env.classify useAI query
      (deduplicate_trials
        (search_clinicaltrials_gov env.ctgov ++
         internationalTrials env query (resultsPerSource maxResults) includeInternational ++
         academicTrials serpapiKey env (resultsPerSource maxResults) includeAcademic)))

/-! ### Concrete fixtures used by the claim theorems -/

/-- Record with the spec's first boundary title (5 tokens). -/
def trialA : Trial :=
  { title := "Diabetes Treatment Study Phase Two"
    url := "https://clinicaltrials.gov/study/NCT00000001"
    source := "ClinicalTrials.gov"
    abstract := "a" }

/-- Record whose title shares 4 of 5 tokens with `trialA` (overlap 4/5). -/
def trialB : Trial :=
  { title := "Diabetes Treatment Study Phase Three"
    url := "https://trialsearch.who.int/Trial2.aspx?TrialID=x1"
    source := "WHO ICTRP"
    abstract := "b" }

/-- Record whose title shares 5 of its 6 tokens with `trialA`
(overlap 5/6). -/
def trialC : Trial :=
  { title := "Diabetes Treatment Study Phase Two Trial"
    url := "https://euclinicaltrials.eu/ctis-public/view/2020000000"
    source := "EU CTIS"
    abstract := "c" }

/-- Record with an empty title. -/
def emptyTitleA : Trial :=
  { title := ""
    url := "https://example.org/a"
    source := "SourceA"
    abstract := "a" }

/-- Record with a whitespace-only title. -/
def emptyTitleB : Trial :=
  { title := "   "
    url := "https://example.org/b"
    source := "SourceB"
    abstract := "b" }

/-! ### Deduplicator claims -/

/-- **C2.** The Deduplicator discards a record iff the token-set overlap
`|A ∩ B| / max(|A|, |B|, 1)` against some already-accepted record strictly
exceeds 0.8 (proved as equality with the specification-side `dedupeSpec`);
an overlap of exactly 4/5 keeps both records, while an overlap of 5/6
discards the later record and keeps the earlier-seen one. -/
theorem dedup_threshold_boundary :
    (∀ ts : List Trial, deduplicate_trials ts = dedupeSpec ts) ∧
    overlap (specTokens trialB) (specTokens trialA) = 4/5 ∧
    deduplicate_trials [trialA, trialB] = [trialA, trialB] ∧
    overlap (specTokens trialC) (specTokens trialA) = 5/6 ∧
    deduplicate_trials [trialA, trialC] = [trialA] := by
  refine ⟨deduplicate_trials_eq_spec, ?_, by decide, ?_, by decide⟩
  · have h1 : (specTokens trialB ∩ specTokens trialA).card = 4 := by decide
    have h2 : max (specTokens trialB).card (max (specTokens trialA).card 1) = 5 := by
      decide
    rw [overlap, h1, h2]
    norm_num
  · have h1 : (specTokens trialC ∩ specTokens trialA).card = 5 := by decide
    have h2 : max (specTokens trialC).card (max (specTokens trialA).card 1) = 6 := by
      decide
    rw [overlap, h1, h2]
    norm_num

/-- **C6.** The Deduplicator is idempotent: running it again on its own
output returns that output unchanged. -/
theorem dedup_idempotent (ts : List Trial) :
    deduplicate_trials (deduplicate_trials ts) = deduplicate_trials ts :=
  dedupeGo_of_acceptedChain (acceptedChain_dedupeGo [] ts)

theorem overlap_empty_left (B : Finset String) : overlap ∅ B = 0 := by
  rw [overlap]
  simp

theorem overlapGt_empty_left (B : Finset String) : overlapGt ∅ B = false := by
  rw [overlapGt]
  simp

theorem isDuplicate_of_tokenless {title : String} (h : titleTokenSet title = ∅)
    (seen : List String) : isDuplicate seen title = false := by
  rw [isDuplicate, List.any_eq_false]
  intro s _
  rw [h, overlapGt_empty_left]
  simp

theorem dedupeGo_keeps_tokenless (seen : List String) (ts : List Trial) :
    (dedupeGo seen ts).filter (fun t => decide (titleTokenSet (normTitle t) = ∅)) =
    ts.filter (fun t => decide (titleTokenSet (normTitle t) = ∅)) := by
  induction ts generalizing seen with
  | nil => rfl
  | cons t ts ih =>
    simp only [dedupeGo]
    by_cases hp : titleTokenSet (normTitle t) = ∅
    · rw [isDuplicate_of_tokenless hp seen]
      simp only [Bool.false_eq_true, if_false, List.filter_cons]
      simp [hp, ih]
    · by_cases hd : isDuplicate seen (normTitle t) = true
      · rw [hd]
        simp only [if_true, List.filter_cons]
        simp [hp, ih seen]
      · rw [Bool.not_eq_true] at hd
        rw [hd]
        simp only [Bool.false_eq_true, if_false, List.filter_cons]
        simp [hp, ih]

/-- **C10.** The overlap denominator `max(|A|, |B|, 1)` is never zero; a
token-less (empty or whitespace-only) title has overlap 0 with every
other title, so such records are always accepted — in particular two
records with empty titles are both kept. -/
theorem dedup_tokenless_safety :
    (∀ A B : Finset String, 0 < max A.card (max B.card 1)) ∧
    (∀ B : Finset String, overlap ∅ B = 0) ∧
    (titleTokenSet (normTitle emptyTitleA) = ∅ ∧
      titleTokenSet (normTitle emptyTitleB) = ∅) ∧
    (∀ ts : List Trial,
      (deduplicate_trials ts).filter (fun t => decide (titleTokenSet (normTitle t) = ∅)) =
      ts.filter (fun t => decide (titleTokenSet (normTitle t) = ∅))) ∧
    deduplicate_trials [emptyTitleA, emptyTitleB] = [emptyTitleA, emptyTitleB] := by
  refine ⟨?_, overlap_empty_left, by decide,
    fun ts => dedupeGo_keeps_tokenless [] ts, by decide⟩
  intro A B
  exact lt_of_lt_of_le Nat.zero_lt_one (le_max_of_le_right (le_max_right _ _))

/-! ### Classifier claims -/

/-- A ClinicalTrials.gov study with a present, non-empty title. -/
def studyA : CTStudy :=
  { nctId := some "NCT00000001"
    briefTitle := some "Alpha Trial"
    officialTitle := none
    briefSummary := some "Summary"
    detailedDescription := none }

/-- Environment: only ClinicalTrials.gov answers, with one study. -/
def envOneStudy : SearchEnv :=
  { ctgov := some [studyA]
    whoOk := false
    isrctnOk := false
    anzctrOk := false
    pubmed := none
    scholar := none
    classify := .setupFail }

/-- **C5 counterexample.** With AI classification disabled
(`use_ai_classification=False`) the classification step never runs, so the
pipeline's output records carry no score, classification or confidence at
all — not the claimed fixed 75/"Relevant"/75. -/
theorem classifier_disabled_no_defaults :
    ∃ r ∈ search_trials none none envOneStudy "alpha" 10 false false false,
      r.ai_score = none ∧ r.ai_classification = none ∧ r.confidence = none := by
  decide

/-- **C5 (amended).** When the classification step does run with no AI
credential configured, every record receives exactly score 75,
classification "Relevant", confidence 75, independently of the reasoning
service's behaviour — hence classifying the same input twice (under any
two service environments) yields identical results.  When
`use_ai_classification` is false the classifier is skipped entirely and
records carry no classification fields (see the counterexample). -/
theorem classifier_no_credential_defaults (key : Option String)
    (env env' : ClassifyEnv) (trials : List Trial) (query query' : String)
    (hk : truthyKey key = false) :
    classify_with_ai key env trials query =
      trials.map (fun t =>
        { t with
          ai_score := some 75
          ai_classification := some "Relevant"
          confidence := some 75 }) ∧
    classify_with_ai key env trials query =
      classify_with_ai key env' trials query' := by
  simp only [classify_with_ai, hk]
  exact ⟨rfl, rfl⟩

theorem classifier_no_credential_defaults_witness :
    classify_with_ai none ClassifyEnv.setupFail [trialA] "q" =
      [{ trialA with
          ai_score := some 75
          ai_classification := some "Relevant"
          confidence := some 75 }] := by
  have h := (classifier_no_credential_defaults none ClassifyEnv.setupFail
    (ClassifyEnv.ok fun _ => RecordOutcome.err) [trialA] "q" "r" rfl).1
  simpa using h

/-- **C3 counterexample.** When the reasoning service is unreachable for
the whole batch, the code assigns confidence 70, not the claimed 75. -/
theorem classifier_unreachable_conf70 :
    (classify_with_ai (some "key") ClassifyEnv.setupFail [trialA] "q").map
      (fun t => t.confidence) = [some 70] ∧
    ¬ (classify_with_ai (some "key") ClassifyEnv.setupFail [trialA] "q").map
      (fun t => t.confidence) = [some 75] := by
  exact ⟨by decide, by decide⟩

/-- **C3 (amended).** If the reasoning service is unreachable for the
whole batch (client setup fails before any record is classified), the
Classifier assigns score 75, classification "Relevant", confidence 70 —
not step 1's confidence 75 — to every record and returns normally: the
failure is never propagated to the caller. -/
theorem classifier_unreachable_fallback (key : Option String)
    (trials : List Trial) (query : String) (hk : truthyKey key = true) :
    classify_with_ai key ClassifyEnv.setupFail trials query =
      trials.map (fun t =>
        { t with
          ai_score := some 75
          ai_classification := some "Relevant"
          confidence := some 70 }) := by
  simp [classify_with_ai, hk]

theorem classifier_unreachable_fallback_witness :
    classify_with_ai (some "key") ClassifyEnv.setupFail [trialA] "q" =
      [{ trialA with
          ai_score := some 75
          ai_classification := some "Relevant"
          confidence := some 70 }] := by
  simpa using classifier_unreachable_fallback (some "key") [trialA] "q" rfl

theorem classifyLoop_getElem (f : Nat → RecordOutcome) (n i : Nat)
    (ts : List Trial) :
    (classifyLoop f n ts)[i]? = (ts[i]?).map (fun t => classifyOne (f (n + i)) t) := by
  induction ts generalizing n i with
  | nil => simp [classifyLoop]
  | cons t ts ih =>
    cases i with
    | zero => simp [classifyLoop]
    | succ j =>
      rw [classifyLoop]
      rw [List.getElem?_cons_succ, List.getElem?_cons_succ, ih (n + 1) j]
      have harith : n + 1 + j = n + (j + 1) := by omega
      rw [harith]

/-- **C8.** A reply with no extractable JSON payload (or a failing parse)
downgrades exactly that record to score 75 / "Relevant" / confidence 70,
and every sibling's result depends only on that sibling's own outcome:
changing outcomes anywhere else leaves it untouched. -/
theorem classifier_single_malformed_isolated (key : Option String)
    (f : Nat → RecordOutcome) (trials : List Trial) (query : String) (i : Nat)
    (hk : truthyKey key = true) (hf : f i = RecordOutcome.reply none) :
    ((classify_with_ai key (ClassifyEnv.ok f) trials query)[i]? =
      (trials[i]?).map (fun t =>
        { t with
          ai_score := some 75
          ai_classification := some "Relevant"
          confidence := some 70
          ai_reasoning := some "Default classification applied" })) ∧
    (∀ g : Nat → RecordOutcome, (∀ j, j ≠ i → g j = f j) →
      ∀ j, j ≠ i →
        (classify_with_ai key (ClassifyEnv.ok g) trials query)[j]? =
        (classify_with_ai key (ClassifyEnv.ok f) trials query)[j]?) := by
  have hopen : ∀ h : Nat → RecordOutcome,
      classify_with_ai key (ClassifyEnv.ok h) trials query = classifyLoop h 0 trials := by
    intro h
    simp [classify_with_ai, hk]
  constructor
  · rw [hopen f, classifyLoop_getElem f 0 i trials]
    simp only [Nat.zero_add, hf]
    rfl
  · intro g hg j hj
    rw [hopen f, hopen g, classifyLoop_getElem f 0 j trials,
      classifyLoop_getElem g 0 j trials]
    simp only [Nat.zero_add, hg j hj]

theorem classifier_single_malformed_isolated_witness :
    (classify_with_ai (some "k")
      (ClassifyEnv.ok (fun j => if j = 0 then RecordOutcome.reply none
        else RecordOutcome.err))
      [trialA, trialB] "q")[0]? =
      some { trialA with
              ai_score := some 75
              ai_classification := some "Relevant"
              confidence := some 70
              ai_reasoning := some "Default classification applied" } := by
  have h := (classifier_single_malformed_isolated (some "k")
    (fun j => if j = 0 then RecordOutcome.reply none else RecordOutcome.err)
    [trialA, trialB] "q" 0 rfl rfl).1
  simpa using h

/-! ### Adapter title claims (C9) -/

/-- A study whose `briefTitle` key is present with an empty string. -/
def emptyBriefStudy : CTStudy :=
  { nctId := some "NCT00000002"
    briefTitle := some ""
    officialTitle := some "An Official Title"
    briefSummary := none
    detailedDescription := none }

/-- **C9 counterexample.** A study whose title key is present but empty
yields a record whose title is the empty string — the "No title" sentinel
is substituted only for a *missing* key, not an empty value. -/
theorem adapter_empty_title_passthrough :
    (processStudy emptyBriefStudy).title = "" ∧
    (processStudy emptyBriefStudy).title ≠ "No title" := by decide

/-- **C9 (amended).** The adapters substitute the "No title" sentinel
only for a *missing* title field: ClinicalTrials.gov falls back to
`officialTitle` and then the sentinel, Google Scholar directly to the
sentinel; any present title value — including the empty string — is
passed through unchanged. -/
theorem adapter_title_missing_sentinel (st : CTStudy) (r : ScholarItem) :
    (st.briefTitle = none → st.officialTitle = none →
      (processStudy st).title = "No title") ∧
    (∀ s, st.briefTitle = some s → (processStudy st).title = s) ∧
    (∀ s, st.briefTitle = none → st.officialTitle = some s →
      (processStudy st).title = s) ∧
    (r.title = none → (processScholarItem r).title = "No title") ∧
    (∀ s, r.title = some s → (processScholarItem r).title = s) := by
  refine ⟨?_, ?_, ?_, ?_, ?_⟩ <;> intros <;>
    simp_all [processStudy, processScholarItem]

/-- A study carrying no title information at all. -/
def missingTitleStudy : CTStudy :=
  { nctId := none
    briefTitle := none
    officialTitle := none
    briefSummary := none
    detailedDescription := none }

/-- A Scholar item carrying no fields at all. -/
def missingTitleItem : ScholarItem :=
  { title := none
    link := none
    snippet := none }

theorem adapter_title_missing_sentinel_witness :
    (processStudy missingTitleStudy).title = "No title" :=
  (adapter_title_missing_sentinel missingTitleStudy missingTitleItem).1 rfl rfl

/-! ### Ranker claims (C7) -/

/-- Score-90 record, first in input. -/
def t90a : Trial :=
  { title := "Alpha"
    url := "https://example.org/1"
    source := "S"
    abstract := "x"
    ai_score := some 90 }

/-- Score-70 record. -/
def t70 : Trial :=
  { title := "Beta"
    url := "https://example.org/2"
    source := "S"
    abstract := "x"
    ai_score := some 70 }

/-- Score-90 record, later in input than `t90a`. -/
def t90b : Trial :=
  { title := "Gamma"
    url := "https://example.org/3"
    source := "S"
    abstract := "x"
    ai_score := some 90 }

/-- Score-50 record. -/
def t50 : Trial :=
  { title := "Delta"
    url := "https://example.org/4"
    source := "S"
    abstract := "x"
    ai_score := some 50 }

theorem rank_filter_pairwise (k : Int) (ts : List Trial) :
    (ts.filter (fun t => decide (sortKey t = k))).Pairwise rankRel := by
  induction ts with
  | nil => simp
  | cons t ts ih =>
    rw [List.filter_cons]
    split
    · next h =>
      refine List.Pairwise.cons ?_ ih
      intro b hb
      have hbk : sortKey b = k := by simpa using (List.mem_filter.mp hb).2
      have htk : sortKey t = k := by simpa using h
      show sortKey b ≤ sortKey t
      rw [hbk, htk]
    · exact ih

theorem rank_stable_filter (ts : List Trial) (k : Int) :
    (rankTrials ts).filter (fun t => decide (sortKey t = k)) =
    ts.filter (fun t => decide (sortKey t = k)) := by
  have hsub : List.Sublist (ts.filter (fun t => decide (sortKey t = k)))
      (rankTrials ts) :=
    List.sublist_insertionSort (rank_filter_pairwise k ts) (List.filter_sublist ts)
  have hsub2 : List.Sublist
      ((ts.filter (fun t => decide (sortKey t = k))).filter
        (fun t => decide (sortKey t = k)))
      ((rankTrials ts).filter (fun t => decide (sortKey t = k))) :=
    hsub.filter _
  rw [List.filter_filter] at hsub2
  have hff : (fun t => decide (sortKey t = k) && decide (sortKey t = k)) =
      (fun t => decide (sortKey t = k)) := by
    funext t
    rw [Bool.and_self]
  rw [hff] at hsub2
  have hperm : List.Perm ((rankTrials ts).filter (fun t => decide (sortKey t = k)))
      (ts.filter (fun t => decide (sortKey t = k))) :=
    (List.perm_insertionSort rankRel ts).filter _
  exact (hsub2.eq_of_length hperm.length_eq.symm).symm

/-- **C7.** The Ranker is a stable sort by relevance score descending: the
output is a permutation of the input, scores are non-increasing along it,
the records of any fixed score keep their input (post-dedup) relative
order — no secondary key reorders ties — and the spec's concrete
[90, 70, 90, 50] example sorts with the two 90s in their original
relative order, then 70, then 50. -/
theorem ranker_stable_descending :
    (∀ ts : List Trial, List.Perm (rankTrials ts) ts) ∧
    (∀ ts : List Trial, (rankTrials ts).Pairwise (fun a b => sortKey b ≤ sortKey a)) ∧
    (∀ (ts : List Trial) (k : Int),
      (rankTrials ts).filter (fun t => decide (sortKey t = k)) =
      ts.filter (fun t => decide (sortKey t = k))) ∧
    rankTrials [t90a, t70, t90b, t50] = [t90a, t90b, t70, t50] := by
  refine ⟨fun ts => List.perm_insertionSort rankRel ts, fun ts => ?_,
    rank_stable_filter, by decide⟩
  exact List.sorted_insertionSort rankRel ts

/-! ### Pipeline claims (C1, C4) -/

theorem string_append_ne_empty (s t : String) (hs : s ≠ "") : s ++ t ≠ "" := by
  intro h
  apply hs
  have hd : s.data ++ t.data = ([] : List Char) := by
    have h2 := congrArg String.data h
    simpa [String.data_append] using h2
  exact String.ext (List.append_eq_nil.mp hd).1

/-- `classify_with_ai` with a falsy credential is the fixed 75/75 map
(helper shared by several claim proofs). -/
theorem classify_with_ai_no_key (key : Option String) (env : ClassifyEnv)
    (trials : List Trial) (query : String) (hk : truthyKey key = false) :
    classify_with_ai key env trials query =
      trials.map (fun t =>
        { t with
          ai_score := some 75
          ai_classification := some "Relevant"
          confidence := some 75 }) := by
  simp only [classify_with_ai, hk]
  rfl

theorem processStudy_fields {st : CTStudy} (h1 : st.briefTitle ≠ some "")
    (h2 : st.briefTitle = none → st.officialTitle ≠ some "") :
    (processStudy st).title ≠ "" ∧ (processStudy st).url ≠ "" ∧
    (processStudy st).source ≠ "" := by
  refine ⟨?_, ?_, by simp [processStudy]⟩
  · show st.briefTitle.getD (st.officialTitle.getD "No title") ≠ ""
    rcases hb : st.briefTitle with _ | s
    · rcases ho : st.officialTitle with _ | s2
      · simp
      · rw [Option.getD_none, Option.getD_some]
        intro hs
        exact h2 hb (by rw [ho, hs])
    · rw [Option.getD_some]
      intro hs
      exact h1 (by rw [hb, hs])
  · show (if st.nctId.getD "N/A" != "N/A" then
        "https://clinicaltrials.gov/study/" ++ st.nctId.getD "N/A"
      else "N/A") ≠ ""
    split
    · exact string_append_ne_empty _ _ (by decide)
    · decide

theorem processScholarItem_fields {it : ScholarItem} (h1 : it.title ≠ some "")
    (h2 : it.link ≠ some "") :
    (processScholarItem it).title ≠ "" ∧ (processScholarItem it).url ≠ "" ∧
    (processScholarItem it).source ≠ "" := by
  refine ⟨?_, ?_, by simp [processScholarItem]⟩
  · show it.title.getD "No title" ≠ ""
    rcases hb : it.title with _ | s
    · simp
    · rw [Option.getD_some]
      intro hs
      exact h1 (by rw [hb, hs])
  · show it.link.getD "N/A" ≠ ""
    rcases hb : it.link with _ | s
    · simp
    · rw [Option.getD_some]
      intro hs
      exact h2 (by rw [hb, hs])

theorem who_fields {q : String} {n : Int} {ok : Bool} {r : Trial}
    (h : r ∈ search_who_ictrp q n ok) :
    r.title ≠ "" ∧ r.url ≠ "" ∧ r.source ≠ "" := by
  rw [search_who_ictrp] at h
  split at h
  · simp at h
  · simp only [List.mem_map] at h
    obtain ⟨i, hi, hfi⟩ := h
    rw [← hfi]
    exact ⟨string_append_ne_empty _ _ (string_append_ne_empty _ _
        (string_append_ne_empty _ _ (by decide))),
      string_append_ne_empty _ _ (string_append_ne_empty _ _ (by decide)),
      (by decide : ("WHO ICTRP" : String) ≠ "")⟩

theorem eu_fields {q : String} {n : Int} {r : Trial}
    (h : r ∈ search_eu_ctis q n) :
    r.title ≠ "" ∧ r.url ≠ "" ∧ r.source ≠ "" := by
  rw [search_eu_ctis] at h
  simp only [List.mem_map] at h
  obtain ⟨i, hi, hfi⟩ := h
  rw [← hfi]
  exact ⟨string_append_ne_empty _ _ (string_append_ne_empty _ _
      (string_append_ne_empty _ _ (by decide))),
    string_append_ne_empty _ _ (by decide),
    (by decide : ("EU CTIS" : String) ≠ "")⟩

theorem isrctn_fields {q : String} {n : Int} {ok : Bool} {r : Trial}
    (h : r ∈ search_isrctn_registry q n ok) :
    r.title ≠ "" ∧ r.url ≠ "" ∧ r.source ≠ "" := by
  rw [search_isrctn_registry] at h
  split at h
  · simp at h
  · simp only [List.mem_map] at h
    obtain ⟨i, hi, hfi⟩ := h
    rw [← hfi]
    exact ⟨string_append_ne_empty _ _ (by decide),
      string_append_ne_empty _ _ (by decide),
      (by decide : ("ISRCTN Registry" : String) ≠ "")⟩

theorem anzctr_fields {q : String} {n : Int} {ok : Bool} {r : Trial}
    (h : r ∈ search_anzctr_registry q n ok) :
    r.title ≠ "" ∧ r.url ≠ "" ∧ r.source ≠ "" := by
  rw [search_anzctr_registry] at h
  split at h
  · simp at h
  · simp only [List.mem_map] at h
    obtain ⟨i, hi, hfi⟩ := h
    rw [← hfi]
    exact ⟨string_append_ne_empty _ _ (string_append_ne_empty _ _
        (string_append_ne_empty _ _ (by decide))),
      string_append_ne_empty _ _ (by decide),
      (by decide : ("ANZCTR" : String) ≠ "")⟩

theorem ctri_fields {q : String} {n : Int} {r : Trial}
    (h : r ∈ search_ctri_india q n) :
    r.title ≠ "" ∧ r.url ≠ "" ∧ r.source ≠ "" := by
  rw [search_ctri_india] at h
  simp only [List.mem_map] at h
  obtain ⟨i, hi, hfi⟩ := h
  rw [← hfi]
  exact ⟨string_append_ne_empty _ _ (string_append_ne_empty _ _
      (string_append_ne_empty _ _ (by decide))),
    string_append_ne_empty _ _ (by decide),
    (by decide : ("CTRI India" : String) ≠ "")⟩

theorem pubmed_fields {n : Int} {resp : Option (List String)} {r : Trial}
    (h : r ∈ search_pubmed_related n resp) :
    r.title ≠ "" ∧ r.url ≠ "" ∧ r.source ≠ "" := by
  rw [search_pubmed_related.eq_def] at h
  rcases resp with _ | pmids
  · simp at h
  · simp only [List.mem_map] at h
    obtain ⟨pmid, hpm, hfi⟩ := h
    rw [← hfi]
    exact ⟨string_append_ne_empty _ _ (string_append_ne_empty _ _ (by decide)),
      string_append_ne_empty _ _ (string_append_ne_empty _ _ (by decide)),
      (by decide : ("PubMed" : String) ≠ "")⟩

theorem scholar_wrapper_fields {serp : Option String}
    {resp : Option (List ScholarItem)} {r : Trial}
    (hsch : ∀ it ∈ resp.getD [], it.title ≠ some "" ∧ it.link ≠ some "")
    (h : r ∈ search_google_scholar serp resp) :
    r.title ≠ "" ∧ r.url ≠ "" ∧ r.source ≠ "" := by
  rw [search_google_scholar.eq_def] at h
  split at h
  · simp at h
  · rcases hre : resp with _ | items
    · rw [hre] at h
      simp at h
    · rw [hre] at h
      simp only [List.mem_map] at h
      obtain ⟨it, hit, rfl⟩ := h
      have hp := hsch it (by rw [hre]; simpa using hit)
      exact processScholarItem_fields hp.1 hp.2

theorem aggregated_fields (serp : Option String) (env : SearchEnv) (q : String)
    (rps : Int) (ia ii : Bool)
    (hct : ∀ st ∈ env.ctgov.getD [], st.briefTitle ≠ some "" ∧
      (st.briefTitle = none → st.officialTitle ≠ some ""))
    (hsch : ∀ it ∈ env.scholar.getD [], it.title ≠ some "" ∧ it.link ≠ some "") :
    ∀ r ∈ search_clinicaltrials_gov env.ctgov ++
        internationalTrials env q rps ii ++ academicTrials serp env rps ia,
      r.title ≠ "" ∧ r.url ≠ "" ∧ r.source ≠ "" := by
  intro r hr
  rcases List.mem_append.mp hr with hr | hr
  · rcases List.mem_append.mp hr with hr | hr
    · rw [search_clinicaltrials_gov.eq_def] at hr
      rcases hc : env.ctgov with _ | studies
      · rw [hc] at hr
        simp at hr
      · rw [hc] at hr
        simp only [List.mem_map] at hr
        obtain ⟨st, hst, rfl⟩ := hr
        have hp := hct st (by rw [hc]; simpa using hst)
        exact processStudy_fields hp.1 hp.2
    · rw [internationalTrials] at hr
      split at hr
      · rcases List.mem_append.mp hr with hr | hr
        · rcases List.mem_append.mp hr with hr | hr
          · rcases List.mem_append.mp hr with hr | hr
            · rcases List.mem_append.mp hr with hr | hr
              · exact who_fields hr
              · exact eu_fields hr
            · exact isrctn_fields hr
          · exact anzctr_fields hr
        · exact ctri_fields hr
      · simp at hr
  · rw [academicTrials] at hr
    split at hr
    · rcases List.mem_append.mp hr with hr | hr
      · exact pubmed_fields hr
      · exact scholar_wrapper_fields hsch hr
    · simp at hr

/-- `classifyOne` preserves `title`/`url`/`source` and populates all
three classification fields, on each of its three arms. -/
theorem classifyOne_fields (o : RecordOutcome) (t : Trial) :
    (classifyOne o t).title = t.title ∧ (classifyOne o t).url = t.url ∧
    (classifyOne o t).source = t.source ∧ (classifyOne o t).ai_score ≠ none ∧
    (classifyOne o t).ai_classification ≠ none ∧
    (classifyOne o t).confidence ≠ none := by
  rcases o with _ | (_ | pl) <;>
    exact ⟨rfl, rfl, rfl, by simp [classifyOne], by simp [classifyOne],
      by simp [classifyOne]⟩

/-- Every record of `classifyLoop`'s output is `classifyOne` applied to
some input record. -/
theorem mem_classifyLoop {r : Trial} (f : Nat → RecordOutcome) :
    ∀ (n : Nat) (ts : List Trial), r ∈ classifyLoop f n ts →
      ∃ t ∈ ts, ∃ i, r = classifyOne (f i) t := by
  intro n ts
  induction ts generalizing n with
  | nil =>
    intro h
    simp [classifyLoop] at h
  | cons t ts ih =>
    intro h
    rw [classifyLoop] at h
    rcases List.mem_cons.mp h with h | h
    · exact ⟨t, by simp, n, h⟩
    · obtain ⟨t', ht', i, hi⟩ := ih (n + 1) h
      exact ⟨t', by simp [ht'], i, hi⟩

/-- On every path of `classify_with_ai` — no credential, whole-batch
setup failure, or the per-record loop — each output record keeps its
`title`/`url`/`source` and leaves with all three classification fields
populated; with a falsy credential the values are exactly 75 /
"Relevant" / 75. -/
theorem classify_with_ai_mem (key : Option String) (cenv : ClassifyEnv)
    (ts : List Trial) (query : String) {r : Trial}
    (hr : r ∈ classify_with_ai key cenv ts query) :
    ∃ t ∈ ts, r.title = t.title ∧ r.url = t.url ∧ r.source = t.source ∧
      r.ai_score ≠ none ∧ r.ai_classification ≠ none ∧ r.confidence ≠ none ∧
      (truthyKey key = false → r.ai_score = some 75 ∧
        r.ai_classification = some "Relevant" ∧ r.confidence = some 75) := by
  by_cases hk : truthyKey key = false
  · rw [classify_with_ai_no_key key cenv ts query hk, List.mem_map] at hr
    obtain ⟨t, ht, rfl⟩ := hr
    exact ⟨t, ht, rfl, rfl, rfl, by simp, by simp, by simp,
      fun _ => ⟨rfl, rfl, rfl⟩⟩
  · have hk' : truthyKey key = true := by
      rcases Bool.eq_false_or_eq_true (truthyKey key) with h | h
      · exact h
      · exact absurd h hk
    have hcontra : ¬ truthyKey key = false := by
      rw [hk']
      simp
    rw [classify_with_ai.eq_def, if_neg hcontra] at hr
    rcases cenv with _ | f
    · rw [List.mem_map] at hr
      obtain ⟨t, ht, rfl⟩ := hr
      exact ⟨t, ht, rfl, rfl, rfl, by simp, by simp, by simp,
        fun hkf => absurd hkf hcontra⟩
    · obtain ⟨t, ht, i, rfl⟩ := mem_classifyLoop f 0 ts hr
      have hf := classifyOne_fields (f i) t
      exact ⟨t, ht, hf.1, hf.2.1, hf.2.2.1, hf.2.2.2.1, hf.2.2.2.2.1,
        hf.2.2.2.2.2, fun hkf => absurd hkf hcontra⟩

/-- **C1 (amended).** When AI classification is *enabled*, every record
of the pipeline output carries fully-populated relevance fields on every
classification path (live replies, per-record fallbacks, whole-batch
fallback, or no credential); with no credential configured the values
are exactly 75 / "Relevant" / 75 (inside [0,100]).  `url` and `source`
are always non-empty; `title` is non-empty provided no source item
carries a present-but-empty title (or link) field.  (With AI
classification disabled the relevance fields stay absent — see the
counterexample — and a present-but-empty source title flows through,
see C9.) -/
theorem pipeline_output_invariants (key serp : Option String) (env : SearchEnv)
    (query : String) (maxResults : Int) (ia ii : Bool)
    (hct : ∀ st ∈ env.ctgov.getD [], st.briefTitle ≠ some "" ∧
      (st.briefTitle = none → st.officialTitle ≠ some ""))
    (hsch : ∀ it ∈ env.scholar.getD [], it.title ≠ some "" ∧ it.link ≠ some "") :
    ∀ r ∈ search_trials key serp env query maxResults ia ii true,
      r.title ≠ "" ∧ r.url ≠ "" ∧ r.source ≠ "" ∧
      r.ai_score ≠ none ∧ r.ai_classification ≠ none ∧ r.confidence ≠ none ∧
      (truthyKey key = false →
        r.ai_score = some 75 ∧ r.ai_classification = some "Relevant" ∧
        r.confidence = some 75 ∧ (0 : Int) ≤ 75 ∧ (75 : Int) ≤ 100) := by
  intro r hr
  rw [search_trials, rankTrials, List.mem_insertionSort, optClassify,
    if_pos rfl] at hr
  obtain ⟨t, ht, htitle, hurl, hsource, hscore, hclass, hconf, himp⟩ :=
    classify_with_ai_mem key env.classify _ query hr
  have hmem := (dedupeGo_sublist [] _).subset ht
  have hf := aggregated_fields serp env query (resultsPerSource maxResults)
    ia ii hct hsch t hmem
  refine ⟨?_, ?_, ?_, hscore, hclass, hconf, fun hk => ?_⟩
  · rw [htitle]
    exact hf.1
  · rw [hurl]
    exact hf.2.1
  · rw [hsource]
    exact hf.2.2
  · obtain ⟨h1, h2, h3⟩ := himp hk
    exact ⟨h1, h2, h3, by norm_num, by norm_num⟩

/-- The classified record the pipeline produces from `studyA`. -/
def trialAlphaClassified : Trial :=
  { title := "Alpha Trial"
    url := "https://clinicaltrials.gov/study/NCT00000001"
    source := "ClinicalTrials.gov"
    abstract := "Summary"
    ai_score := some 75
    ai_classification := some "Relevant"
    confidence := some 75 }

theorem pipeline_output_invariants_witness :
    trialAlphaClassified.title ≠ "" ∧ trialAlphaClassified.url ≠ "" ∧
    trialAlphaClassified.source ≠ "" ∧
    trialAlphaClassified.ai_score ≠ none ∧
    trialAlphaClassified.ai_classification ≠ none ∧
    trialAlphaClassified.confidence ≠ none ∧
    trialAlphaClassified.ai_score = some 75 ∧
    trialAlphaClassified.ai_classification = some "Relevant" ∧
    trialAlphaClassified.confidence = some 75 := by
  have h := pipeline_output_invariants none none envOneStudy "alpha" 10
    false false (by decide) (by decide) trialAlphaClassified (by decide)
  exact ⟨h.1, h.2.1, h.2.2.1, h.2.2.2.1, h.2.2.2.2.1, h.2.2.2.2.2.1,
    (h.2.2.2.2.2.2 rfl).1, (h.2.2.2.2.2.2 rfl).2.1,
    (h.2.2.2.2.2.2 rfl).2.2.1⟩

/-- Environment: only the WHO request succeeds (besides the request-free
EU CTIS and CTRI India placeholders); AI service unreachable. -/
def envIntl : SearchEnv :=
  { ctgov := none
    whoOk := true
    isrctnOk := false
    anzctrOk := false
    pubmed := none
    scholar := none
    classify := .setupFail }

/-- **C1 counterexample.** With AI classification disabled the pipeline's
records have non-empty `title`/`url`/`source` but *no* relevance fields at
all: the claim's "whatever the input flags … fully populated relevance"
fails for `use_ai_classification = False`, because `classify_with_ai` is
then never invoked. -/
theorem pipeline_missing_relevance_when_disabled :
    ∃ r ∈ search_trials none none envIntl "cancer" 40 false true false,
      r.title ≠ "" ∧ r.url ≠ "" ∧ r.source ≠ "" ∧
      r.ai_score = none ∧ r.ai_classification = none ∧ r.confidence = none := by
  decide

/-- Environment in which every outbound request fails (and the request-free
EU CTIS / CTRI India placeholder adapters still produce records). -/
def envOffline : SearchEnv :=
  { ctgov := none
    whoOk := false
    isrctnOk := false
    anzctrOk := false
    pubmed := none
    scholar := none
    classify := .setupFail }

/-- **C4 counterexample.** `search_trials` performs no input validation:
called with an empty query and `max_results = 0` it still invokes the
adapters (the per-source count bottoms out at `max(0 // 8, 5) = 5`) and
returns gathered records — here six records surviving dedup out of the
ten produced by the EU CTIS and CTRI India adapters. -/
theorem no_input_validation :
    search_trials none none envOffline "" 0 false true false ≠ [] ∧
    (search_trials none none envOffline "" 0 false true false).length = 6 ∧
    (search_trials none none envOffline "" 0 false true false).map
      (fun t => t.source) =
      ["EU CTIS", "CTRI India", "CTRI India", "CTRI India", "CTRI India",
       "CTRI India"] := by
  exact ⟨by decide, by decide, by decide⟩

theorem fdiv_eight_nonpos {mr : Int} (h : mr ≤ 0) : Int.fdiv mr 8 ≤ 0 := by
  cases mr with
  | ofNat m =>
    have hm : m = 0 := by
      have h' : (m : Int) ≤ 0 := h
      omega
    subst hm
    decide
  | negSucc m =>
    show Int.negSucc (m / 8) ≤ 0
    exact le_of_lt (Int.negSucc_lt_zero _)

theorem resultsPerSource_of_nonpos {mr : Int} (h : mr ≤ 0) :
    resultsPerSource mr = 5 := by
  rw [resultsPerSource]
  exact max_eq_right (le_trans (fdiv_eight_nonpos h) (by norm_num))

/-- **C4 (amended).** Invalid inputs are *not* rejected and no validation
failure is surfaced: for every non-positive `max_results` the pipeline
behaves exactly as at `max_results = 0` (the per-source request count
bottoms out at `max(max_results // 8, 5) = 5`), the adapters are invoked
and their records gathered — an empty query likewise flows through to the
adapters (see the counterexample, where it returns six records). -/
theorem no_input_validation_passthrough (key serp : Option String)
    (env : SearchEnv) (q : String) (mr : Int) (ia ii ai : Bool)
    (hmr : mr ≤ 0) :
    resultsPerSource mr = 5 ∧
    search_trials key serp env q mr ia ii ai =
      search_trials key serp env q 0 ia ii ai := by
  have h5 : resultsPerSource mr = 5 := resultsPerSource_of_nonpos hmr
  have h0 : resultsPerSource 0 = 5 := by decide
  refine ⟨h5, ?_⟩
  rw [search_trials, search_trials, h5, h0]

theorem no_input_validation_passthrough_witness :
    resultsPerSource (-7) = 5 ∧
    search_trials none none envOffline "" (-7) false true false =
      search_trials none none envOffline "" 0 false true false :=
  no_input_validation_passthrough none none envOffline "" (-7) false true
    false (by decide)
